import Mathlib

/-!
Shallow embedding of `src/android/app/src/cpp/android_host_interface.cpp`
(class `AndroidHostInterface`): the emulation-thread lifecycle
(`StartEmulationThread`, `StopEmulationThread`, `EmulationThreadEntryPoint`),
the cross-thread callback queue (`RunOnEmulationThread` and the worker-side
drain loop), and the speed-band colouring of `DrawFPSWindow`.

Command entries (`std::function<void()>` in the source) are modelled as
opaque labels of type `Nat`; what matters for every claim is which entries
run, in which order, and under which lock discipline.  Cross-thread
interleaving is modelled by explicit schedules: the queue contents a
spinning submitter observes at each lock acquisition, the stop-flag value
the worker observes at each loop-condition check, and the entries appended
by other threads while the worker has released the lock.
-/

namespace AndroidHostInterface

/-- A command entry: the source stores `std::function<void()>` closures in
`m_callback_queue`; we track them as opaque labels. -/
abbrev Cmd := Nat

/-! ## `RunOnEmulationThread` (source lines 109-134)

The caller-side of the queue: inline execution when no worker thread runs,
otherwise append under the lock and, when `blocking`, spin
(unlock/relock) until the queue is observed empty. -/

/-- The blocking spin of `RunOnEmulationThread`: at each lock acquisition
the caller observes the current queue contents (`obs` lists the successive
observations, produced by the concurrently draining worker); it breaks out
at the first observation that is empty.  Returns the index of that
observation, or `none` when no observation in the (finite) schedule is
empty, i.e. the call has not returned yet. -/
def spinUntilEmpty : List (List Cmd) → Option Nat
  | [] => none
  | q :: rest => if q.isEmpty then some 0 else (spinUntilEmpty rest).map (· + 1)

/-- `AndroidHostInterface::RunOnEmulationThread(function, blocking)`.
Arguments: `running` = `IsEmulationThreadRunning()`, `q` = queue contents at
entry, `c` = the submitted entry, `obs` = the queue contents observed at each
subsequent lock reacquisition of the blocking spin (the first emptiness check
happens under the same lock as the `push_back`, so the spin's first
observation is `q ++ [c]`).  Returns
(queue right after the submit step, entries executed inline on the caller's
thread, index of the spin observation at which a blocking call returned). -/
def runOnEmulationThread (running blocking : Bool) (q : List Cmd) (c : Cmd)
    (obs : List (List Cmd)) : List Cmd × List Cmd × Option Nat :=
  if !running then
    (q, [c], none)
  else
    let q1 := q ++ [c]
    if blocking then (q1, [], spinUntilEmpty (q1 :: obs)) else (q1, [], none)

/-! ## The worker-side drain (source lines 188-200)

Inside the loop body the worker locks the mutex, then repeatedly: breaks if
the queue is empty, otherwise moves the front entry out, pops it, unlocks,
executes it, relocks.  Finally it unlocks.  While the lock is released
(during each execution) other threads may append; `appends` gives, for each
execution window in turn, the batch of entries appended during it. -/

/-- One drain event: the worker acquiring the mutex, releasing it, or
executing one dequeued callback. -/
inductive DrainEvent
  | lockMutex
  | unlockMutex
  | exec (c : Cmd)
  deriving DecidableEq

/-- Trace of the inner `for(;;)` drain loop, starting from the state where
the lock is already held: observe the queue; if empty, unlock and stop;
otherwise pop the front entry, unlock, execute it (during which the batch
`appends.headD []` is appended to the back of the queue by other threads),
relock, and continue. -/
def drainLoopEvents : List Cmd → List (List Cmd) → List DrainEvent
  | [], _ => [DrainEvent.unlockMutex]
  | c :: rest, appends =>
      DrainEvent.unlockMutex :: DrainEvent.exec c :: DrainEvent.lockMutex ::
        drainLoopEvents (rest ++ appends.headD []) appends.tail
termination_by q appends => q.length + (appends.map List.length).sum
decreasing_by
  cases appends with
  | nil => simp
  | cons a t => simp; omega

/-- Full trace of the drain section of one loop iteration: the initial
`m_callback_mutex.lock()` followed by the inner loop. -/
def drainEvents (q : List Cmd) (appends : List (List Cmd)) : List DrainEvent :=
  DrainEvent.lockMutex :: drainLoopEvents q appends

/-- The callbacks executed by one drain, in execution order. -/
def drainExecOrder (q : List Cmd) (appends : List (List Cmd)) : List Cmd :=
  (drainLoopEvents q appends).filterMap fun ev =>
    match ev with
    | DrainEvent.exec c => some c
    | _ => none

/-- Spec-side trace shape ("holding the lock only for the removal step,
releasing it for the duration of execution"): each executed entry is
bracketed by an unlock before it and a relock after it, and the drain ends
with a final unlock after the queue is observed empty. -/
def specBracketedTrace (l : List Cmd) : List DrainEvent :=
  l.foldr (fun c acc => DrainEvent.unlockMutex :: DrainEvent.exec c :: DrainEvent.lockMutex :: acc)
    [DrainEvent.unlockMutex]

/-! ## The outer worker loop (source lines 185-228), scheduling view

`while (!m_emulation_thread_stop_request.load()) { drain; simulate; render; }`.
The stop flag is written by other threads (`StopEmulationThread`), so the
value each loop-condition check observes, and the entries other threads
append between one iteration's drain and the next check, are schedule
inputs. -/

/-- The schedule input of one worker-loop iteration: `stop` is the value of
`m_emulation_thread_stop_request` observed at the `while` condition; when
`stop = false`, `arrivals` are the entries appended to `m_callback_queue`
by other threads after this iteration's drain completed and before the next
condition check. -/
structure IterSched where
  stop : Bool
  arrivals : List Cmd
  deriving DecidableEq

/-- Runs the worker loop under a finite schedule, starting with queue `q`.
Each iteration first checks the stop flag: when it reads `true` the loop
exits immediately, leaving `q` undrained.  Otherwise the iteration drains
the whole queue (executing its entries in order) and the iteration's
arrivals form the queue seen by the next check.  Returns
(entries executed by the loop, queue contents when the loop exited). -/
def workerLoop : List IterSched → List Cmd → List Cmd × List Cmd
  | [], q => ([], q)
  | it :: rest, q =>
      if it.stop then ([], q)
      else
        let r := workerLoop rest it.arrivals
        (q ++ r.1, r.2)

/-! ## One frame-loop iteration body (source lines 186-227), event view -/

/-- The observable actions of one iteration body, in source order. -/
inductive LoopEvent
  | drainCallbacks
  | runFrame
  | drawImGui
  | resetGraphicsAPIState
  | renderImGui
  | renderDisplay
  | imguiNewFrame
  | restoreGraphicsAPIState
  | throttle
  | updatePerformanceCounters
  deriving DecidableEq

/-- One iteration of the `while` body as the sequence of actions it
performs, given the current state flags: `hasSystem` = `m_system` non-null,
`paused` = `m_paused`, `limiterOn` = `m_speed_limiter_enabled`. -/
def frameLoopIteration (hasSystem paused limiterOn : Bool) : List LoopEvent :=
  [LoopEvent.drainCallbacks] ++
  (if hasSystem && !paused then [LoopEvent.runFrame] else []) ++
  [LoopEvent.drawImGui] ++
  (if hasSystem then [LoopEvent.resetGraphicsAPIState] else []) ++
  [LoopEvent.renderImGui, LoopEvent.renderDisplay, LoopEvent.imguiNewFrame] ++
  (if hasSystem then
    [LoopEvent.restoreGraphicsAPIState] ++ (if limiterOn then [LoopEvent.throttle] else [])
  else []) ++
  [LoopEvent.updatePerformanceCounters]

/-! ## `EmulationThreadEntryPoint` (source lines 136-233), resource/signal view

Acquisition outcomes of the external collaborators are environment inputs:
`AndroidGLESHostDisplay::Create`, `AndroidAudioStream::Create`,
`AudioStream::Reconfigure(44100, 2)`, `CreateSystem`, `BootSystem`. -/

/-- Outcomes of the worker's acquisition steps. -/
structure StartEnv where
  displayOk : Bool
  audioCreateOk : Bool
  audioReconfigOk : Bool
  createSystemOk : Bool
  bootOk : Bool
  deriving DecidableEq

/-- The start result the worker stores into
`m_emulation_thread_start_result`: all acquisition steps succeeded
(`Reconfigure` is only reached when the audio stream was created, and
`BootSystem` only when `CreateSystem` succeeded, via `||` short-circuit). -/
def startResult (e : StartEnv) : Bool :=
  e.displayOk && (e.audioCreateOk && e.audioReconfigOk) && (e.createSystemOk && e.bootOk)

/-- Resource and signalling events of the worker entry function. -/
inductive EntryEvent
  | createImGuiContext
  | destroyImGuiContext
  | acquireDisplay
  | resetDisplay
  | acquireAudioStream
  | resetAudioStream
  | bootSystem
  | storeStartResult (b : Bool)
  | signalReady
  | frameLoopIter
  deriving DecidableEq

/-- `AndroidHostInterface::EmulationThreadEntryPoint` as the sequence of
resource, store and signal events it performs, given the acquisition
outcomes `e` and the number `iters` of frame-loop iterations the main loop
runs before it observes the stop request.  Mirrors the source paths:
display failure destroys the ImGui context, stores `false` and signals;
audio failure (creation or reconfigure) resets the audio stream pointer
(a no-op when creation failed) then the display, destroys the ImGui
context, stores `false` and signals; boot failure does the same; on
success it stores `true`, signals, loops, then resets the display, the
audio stream, and destroys the ImGui context. -/
def entryEvents (e : StartEnv) (iters : Nat) : List EntryEvent :=
  [EntryEvent.createImGuiContext] ++
  (if !e.displayOk then
    [EntryEvent.destroyImGuiContext, EntryEvent.storeStartResult false, EntryEvent.signalReady]
  else
    [EntryEvent.acquireDisplay] ++
    (if e.audioCreateOk then [EntryEvent.acquireAudioStream] else []) ++
    (if !(e.audioCreateOk && e.audioReconfigOk) then
      [EntryEvent.resetAudioStream, EntryEvent.resetDisplay, EntryEvent.destroyImGuiContext,
       EntryEvent.storeStartResult false, EntryEvent.signalReady]
    else
      if !(e.createSystemOk && e.bootOk) then
        [EntryEvent.resetAudioStream, EntryEvent.resetDisplay, EntryEvent.destroyImGuiContext,
         EntryEvent.storeStartResult false, EntryEvent.signalReady]
      else
        [EntryEvent.bootSystem, EntryEvent.storeStartResult true, EntryEvent.signalReady] ++
        List.replicate iters EntryEvent.frameLoopIter ++
        [EntryEvent.resetDisplay, EntryEvent.resetAudioStream, EntryEvent.destroyImGuiContext]))

/-! ## `StartEmulationThread` (source lines 80-98) and
`StopEmulationThread` (source lines 100-107)

`StartEmulationThread` stores `false` into the stop flag, spawns the worker
and blocks on `m_emulation_thread_started.Wait()`; because of that wait, the
worker's initialization up to `Signal()` is sequenced before the caller
resumes, so the start path is modelled synchronously.  On a `false` start
result the caller joins the (already exiting) worker and returns `false`. -/

/-- The lifecycle state visible to the starter thread. -/
structure HostState where
  threadJoinable : Bool
  stopRequest : Bool
  startFlag : Bool
  deriving DecidableEq

/-- Modelled from the spec: the body of `IsEmulationThreadRunning` lives in
`android_host_interface.h`, which is not part of this repository snapshot;
per the spec it is the non-blocking check that a worker thread is active
(`Start` failure followed by the join leaves it `false`). -/
def isEmulationThreadRunning (s : HostState) : Bool :=
  s.threadJoinable

/-- Caller-side events of `StartEmulationThread`, in program order; the
spawn event records the value of the stop flag at the moment the worker
thread is created. -/
inductive StartEvent
  | storeStopRequest (b : Bool)
  | spawnThread (stopFlagAtSpawn : Bool)
  | waitReady
  | joinThread
  deriving DecidableEq

/-- `AndroidHostInterface::StartEmulationThread`: clear the stop flag,
spawn the worker (whose entry function runs `entryEvents`), wait for the
ready signal, and on a `false` start result join the worker and return
`false`.  Returns (return value, state after the call, caller event
trace). -/
def startEmulationThread (e : StartEnv) (s : HostState) :
    Bool × HostState × List StartEvent :=
  let s1 : HostState := { s with stopRequest := false }
  let s2 : HostState := { s1 with threadJoinable := true, startFlag := startResult e }
  if !startResult e then
    (false, { s2 with threadJoinable := false },
     [StartEvent.storeStopRequest false, StartEvent.spawnThread s1.stopRequest,
      StartEvent.waitReady, StartEvent.joinThread])
  else
    (true, s2,
     [StartEvent.storeStopRequest false, StartEvent.spawnThread s1.stopRequest,
      StartEvent.waitReady])

/-- `AndroidHostInterface::StopEmulationThread`: store `true` into the stop
flag and join.  Join returns only once the worker loop has exited, so the
entries the loop executed (`workerLoop` under the schedule `sched`, whose
last observation reads the flag as `true`) are exactly the entries that
have run by the time `Stop` returns; the rest of the queue is left behind.
Returns (state after, entries executed by loop exit, undrained queue). -/
def stopEmulationThread (s : HostState) (sched : List IterSched) (q : List Cmd) :
    HostState × List Cmd × List Cmd :=
  let r := workerLoop sched q
  ({ s with stopRequest := true, threadJoinable := false }, r.1, r.2)

/-! ## `DrawFPSWindow` speed band (source lines 304-310)

`m_speed` is a `float`; the thresholds `90.0f` and `110.0f` are exactly
representable, so the float comparisons agree with the comparisons of the
represented values, modelled as rationals. -/

/-- The colour band of the speed figure. -/
inductive SpeedBand
  | warning
  | nominal
  | fast
  deriving DecidableEq

/-- `static_cast<u32>(std::round(m_speed))`: `std::round` rounds half away
from zero. -/
def roundedSpeed (speed : ℚ) : ℤ :=
  if 0 ≤ speed then ⌊speed + 1 / 2⌋ else -⌊-speed + 1 / 2⌋

/-- The band choice of `DrawFPSWindow`: `m_speed < 90.0f` warning (red),
else `m_speed < 110.0f` nominal (white), else fast (green). -/
def speedBand (speed : ℚ) : SpeedBand :=
  if speed < 90 then SpeedBand.warning
  else if speed < 110 then SpeedBand.nominal
  else SpeedBand.fast

/-- The speed status text: the rounded percentage figure and its colour
band. -/
def drawSpeedStatus (speed : ℚ) : ℤ × SpeedBand :=
  (roundedSpeed speed, speedBand speed)

/-! ## Helper lemmas -/

theorem drainLoopEvents_nil (appends : List (List Cmd)) :
    drainLoopEvents [] appends = [DrainEvent.unlockMutex] := by
  rw [drainLoopEvents]

theorem drainLoopEvents_cons (c : Cmd) (rest : List Cmd) (appends : List (List Cmd)) :
    drainLoopEvents (c :: rest) appends =
      DrainEvent.unlockMutex :: DrainEvent.exec c :: DrainEvent.lockMutex ::
        drainLoopEvents (rest ++ appends.headD []) appends.tail := by
  rw [drainLoopEvents]

theorem drainExecOrder_nil (appends : List (List Cmd)) :
    drainExecOrder [] appends = [] := by
  simp [drainExecOrder, drainLoopEvents_nil]

theorem drainExecOrder_cons (c : Cmd) (rest : List Cmd) (appends : List (List Cmd)) :
    drainExecOrder (c :: rest) appends =
      c :: drainExecOrder (rest ++ appends.headD []) appends.tail := by
  simp [drainExecOrder, drainLoopEvents_cons]

theorem drainExecOrder_no_appends (q : List Cmd) : drainExecOrder q [] = q := by
  induction q with
  | nil => exact drainExecOrder_nil []
  | cons c rest ih => simp [drainExecOrder_cons, ih]

theorem specBracketedTrace_cons (c : Cmd) (l : List Cmd) :
    specBracketedTrace (c :: l) =
      DrainEvent.unlockMutex :: DrainEvent.exec c :: DrainEvent.lockMutex ::
        specBracketedTrace l := rfl

theorem drainLoopEvents_eq_bracketed :
    ∀ (appends : List (List Cmd)) (q : List Cmd),
      drainLoopEvents q appends = specBracketedTrace (drainExecOrder q appends) := by
  intro appends
  induction appends with
  | nil =>
      intro q
      induction q with
      | nil => simp [drainLoopEvents_nil, drainExecOrder_nil, specBracketedTrace]
      | cons c rest ih =>
          rw [drainLoopEvents_cons, drainExecOrder_cons, specBracketedTrace_cons]
          simp only [List.headD, List.tail, List.append_nil] at *
          rw [ih]
  | cons a t ih =>
      intro q
      cases q with
      | nil => simp [drainLoopEvents_nil, drainExecOrder_nil, specBracketedTrace]
      | cons c rest =>
          rw [drainLoopEvents_cons, drainExecOrder_cons, specBracketedTrace_cons]
          simp only [List.headD, List.tail]
          rw [ih]

theorem drainExecOrder_starts_with_queue :
    ∀ (q ext : List Cmd) (appends : List (List Cmd)),
      q <+: drainExecOrder (q ++ ext) appends := by
  intro q
  induction q with
  | nil => intro ext appends; exact List.nil_prefix
  | cons c q' ih =>
      intro ext appends
      rw [List.cons_append, drainExecOrder_cons]
      obtain ⟨t, ht⟩ := ih (ext ++ appends.headD []) appends.tail
      refine ⟨t, ?_⟩
      rw [List.cons_append, List.append_assoc, ht]

theorem spinUntilEmpty_some (obs : List (List Cmd)) (n : Nat)
    (h : spinUntilEmpty obs = some n) : obs.get? n = some [] := by
  induction obs generalizing n with
  | nil => simp [spinUntilEmpty] at h
  | cons q rest ih =>
      rw [spinUntilEmpty] at h
      by_cases hq : q.isEmpty
      · simp only [hq, if_true, Option.some.injEq] at h
        subst h
        rw [List.isEmpty_iff] at hq
        simp [hq]
      · rw [if_neg hq] at h
        cases hs : spinUntilEmpty rest with
        | none => rw [hs] at h; exact absurd h (by simp)
        | some m =>
            rw [hs] at h
            have hn : m + 1 = n := by simpa using h
            subst hn
            simpa using ih m hs

theorem workerLoop_cons_not_stopped (arr : List Cmd) (rest : List IterSched) (q : List Cmd) :
    workerLoop (({ stop := false, arrivals := arr } : IterSched) :: rest) q =
      (q ++ (workerLoop rest arr).1, (workerLoop rest arr).2) := by
  simp [workerLoop]

/-! ## Claim theorems -/

/-- C4: for every call to `RunOnEmulationThread` with `blocking = true`
while the worker thread is running, the call returns (at spin-observation
index `n`) only after the callback queue has been observed empty at least
once after the submitted entry was appended: the observation at which it
returns is empty, and it is strictly later than the first observation,
which is the queue with the entry just appended. -/
theorem runOnEmulationThread_blocking_returns_after_empty
    (q : List Cmd) (c : Cmd) (obs : List (List Cmd)) (n : Nat)
    (h : (runOnEmulationThread true true q c obs).2.2 = some n) :
    1 ≤ n ∧ ((q ++ [c]) :: obs).get? n = some [] := by
  have hspin : spinUntilEmpty ((q ++ [c]) :: obs) = some n := h
  refine ⟨?_, spinUntilEmpty_some _ _ hspin⟩
  rw [spinUntilEmpty] at hspin
  have hne : (q ++ [c]).isEmpty = false := by simp
  rw [hne] at hspin
  simp only [Bool.false_eq_true, if_false] at hspin
  cases hs : spinUntilEmpty obs with
  | none => rw [hs] at hspin; exact absurd hspin (by simp)
  | some m =>
      rw [hs] at hspin
      have : m + 1 = n := by simpa using hspin
      omega

/-- Witness for C4 at a concrete input: queue empty, entry `0` submitted,
the worker's drain makes the second observation empty, so the call returns
at observation index 1. -/
theorem runOnEmulationThread_blocking_returns_after_empty_witness :
    1 ≤ 1 ∧ ((([] : List Cmd) ++ [0]) :: [[]]).get? 1 = some [] :=
  runOnEmulationThread_blocking_returns_after_empty [] 0 [[]] 1 (by decide)

/-- C5: the worker-side drain executes queued entries in FIFO order (the
entries queued at drain start are executed first, in insertion order, with
mid-drain appends after them), its event trace is exactly an initial lock
followed by each executed entry bracketed between an unlock and a relock
(the lock is held only for removal, released for the duration of each
execution) and a final unlock, and it terminates exactly when the queue is
observed empty (an empty queue yields no executions and only lock/unlock). -/
theorem drain_fifo_lock_discipline :
    (∀ (q ext : List Cmd) (appends : List (List Cmd)),
      q <+: drainExecOrder (q ++ ext) appends) ∧
    (∀ (q : List Cmd), drainExecOrder q [] = q) ∧
    (∀ (q : List Cmd) (appends : List (List Cmd)),
      drainEvents q appends =
        DrainEvent.lockMutex :: specBracketedTrace (drainExecOrder q appends)) ∧
    (∀ (appends : List (List Cmd)),
      drainExecOrder [] appends = [] ∧
      drainEvents [] appends = [DrainEvent.lockMutex, DrainEvent.unlockMutex]) := by
  refine ⟨drainExecOrder_starts_with_queue, drainExecOrder_no_appends, ?_, ?_⟩
  · intro q appends
    rw [drainEvents, drainLoopEvents_eq_bracketed]
  · intro appends
    refine ⟨drainExecOrder_nil appends, ?_⟩
    rw [drainEvents, drainLoopEvents_nil]

/-- C6: a call to `RunOnEmulationThread` made while no worker thread is
running executes the submitted entry synchronously on the caller's thread
and returns immediately, leaving the queue untouched (the entry is never
appended) and performing no spin. -/
theorem runOnEmulationThread_inline_when_not_running
    (blocking : Bool) (q : List Cmd) (c : Cmd) (obs : List (List Cmd)) :
    runOnEmulationThread false blocking q c obs = (q, [c], none) := rfl

/-- C1: `StartEmulationThread` returns `true` exactly when all worker-side
acquisition steps (display surface, audio stream creation and reconfigure,
simulation creation and boot) succeeded; on any acquisition failure it
returns `false`, the worker thread has been joined before the call returns,
and `IsEmulationThreadRunning()` immediately afterwards returns `false`. -/
theorem startEmulationThread_success_iff (e : StartEnv) (s : HostState) :
    (startEmulationThread e s).1 = startResult e ∧
    (startResult e = false →
      StartEvent.joinThread ∈ (startEmulationThread e s).2.2 ∧
      isEmulationThreadRunning (startEmulationThread e s).2.1 = false) := by
  cases h : startResult e <;>
    simp [startEmulationThread, h, isEmulationThreadRunning]

/-- Witness for C1 at a concrete input: display creation fails, starting
from a state whose previous cycle left the stop flag set. -/
theorem startEmulationThread_success_iff_witness :
    StartEvent.joinThread ∈
      (startEmulationThread ⟨false, true, true, true, true⟩ ⟨false, true, false⟩).2.2 ∧
    isEmulationThreadRunning
      (startEmulationThread ⟨false, true, true, true, true⟩ ⟨false, true, false⟩).2.1 = false :=
  (startEmulationThread_success_iff ⟨false, true, true, true, true⟩ ⟨false, true, false⟩).2
    (by decide)

/-- C9: in every frame-loop iteration, the throttle step runs exactly when
the simulation object exists and the speed limiter is enabled; with a null
simulation object the graphics-state reset/restore bracketing is likewise
skipped, while the display present (`m_display->Render()`) runs in every
iteration. -/
theorem frameLoopIteration_throttle_and_bracketing :
    ∀ (hasSystem paused limiterOn : Bool),
      (LoopEvent.throttle ∈ frameLoopIteration hasSystem paused limiterOn ↔
        hasSystem = true ∧ limiterOn = true) ∧
      (LoopEvent.resetGraphicsAPIState ∈ frameLoopIteration hasSystem paused limiterOn ↔
        hasSystem = true) ∧
      (LoopEvent.restoreGraphicsAPIState ∈ frameLoopIteration hasSystem paused limiterOn ↔
        hasSystem = true) ∧
      LoopEvent.renderDisplay ∈ frameLoopIteration hasSystem paused limiterOn := by
  decide

/-- C10: `StartEmulationThread` stores `false` into the stop-requested flag
before spawning the worker (the first two caller events are the store and a
spawn that already sees the flag cleared, whatever leftover value the flag
had), so the newly spawned worker's first loop-condition check reads
`false` and the loop runs its first iteration (draining the queue) instead
of exiting. -/
theorem startEmulationThread_clears_stale_stop :
    ∀ (e : StartEnv) (s : HostState),
      ((startEmulationThread e s).2.2.take 2 =
        [StartEvent.storeStopRequest false, StartEvent.spawnThread false]) ∧
      ∀ (arrivals q : List Cmd) (rest : List IterSched),
        q <+: (workerLoop (({ stop := false, arrivals := arrivals } : IterSched) :: rest) q).1 := by
  intro e s
  constructor
  · cases h : startResult e <;> simp [startEmulationThread, h]
  · intro arrivals q rest
    rw [workerLoop_cons_not_stopped]
    exact ⟨(workerLoop rest arrivals).1, rfl⟩

/-- C3 counterexample: three commands are submitted (non-blocking) while
the worker is running, then `Stop()` is called; in the modelled
interleaving the worker's drain of iteration 0 has already completed when
the three commands arrive, the stop flag (set by `Stop`) is observed `true`
at the next loop-condition check, and the loop exits without draining — so
when `Stop()` returns (after the join) none of the three commands has
executed and all three are still in the queue. -/
theorem stop_returns_with_unexecuted_commands :
    (stopEmulationThread ⟨true, false, true⟩
        [{ stop := false, arrivals := [1, 2, 3] }, { stop := true, arrivals := [] }] []).2.1
      = [] ∧
    (stopEmulationThread ⟨true, false, true⟩
        [{ stop := false, arrivals := [1, 2, 3] }, { stop := true, arrivals := [] }] []).2.2
      = [1, 2, 3] := by
  decide

/-- C3 (amended): commands already in the worker's queue at a
loop-condition check that still reads the stop flag as `false` are executed
before `Stop()` returns; commands that arrive between an iteration's drain
and a check that reads the flag as `true` are not drained, because the loop
checks the stop flag before draining. -/
theorem workerLoop_executes_commands_seen_before_stop
    (arrivals q : List Cmd) (rest : List IterSched) (sched : List IterSched)
    (h : sched = ({ stop := false, arrivals := arrivals } : IterSched) :: rest) :
    q <+: (workerLoop sched q).1 := by
  subst h
  rw [workerLoop_cons_not_stopped]
  exact ⟨(workerLoop rest arrivals).1, rfl⟩

/-- Witness for the amended C3 at a concrete input: queue `[7]`, one
non-stopped iteration followed by a stopped one. -/
theorem workerLoop_executes_commands_seen_before_stop_witness :
    [7] <+: (workerLoop
      [({ stop := false, arrivals := [] } : IterSched), { stop := true, arrivals := [] }] [7]).1 :=
  workerLoop_executes_commands_seen_before_stop [] [7]
    [{ stop := true, arrivals := [] }] _ rfl

/-- C2: on every path of the worker entry function the ready signal is
signalled exactly once (it occurs once in the trace: never in the events
before it nor in those after it), immediately after the start-result flag
has been stored, and on a failure path only after every previously acquired
resource has been released: the ImGui overlay context is always destroyed
before the signal, the display is released whenever it had been created,
and the audio stream is released whenever it had been created. -/
theorem entryEvents_signal_once_after_unwind :
    ∀ (e : StartEnv) (iters : Nat),
      ∃ pre post,
        entryEvents e iters =
          pre ++ EntryEvent.storeStartResult (startResult e) :: EntryEvent.signalReady :: post ∧
        EntryEvent.signalReady ∉ pre ∧ EntryEvent.signalReady ∉ post ∧
        (startResult e = false →
          EntryEvent.destroyImGuiContext ∈ pre ∧
          (e.displayOk = true → EntryEvent.resetDisplay ∈ pre) ∧
          (e.displayOk = true → e.audioCreateOk = true → EntryEvent.resetAudioStream ∈ pre)) := by
  rintro ⟨d, ac, ar, cs, b⟩ iters
  cases d <;> cases ac <;> cases ar <;> cases cs <;> cases b <;>
    first
      | exact ⟨[EntryEvent.createImGuiContext, EntryEvent.destroyImGuiContext], [],
               rfl, by decide, by decide, by decide⟩
      | exact ⟨[EntryEvent.createImGuiContext, EntryEvent.acquireDisplay,
                EntryEvent.resetAudioStream, EntryEvent.resetDisplay,
                EntryEvent.destroyImGuiContext], [],
               rfl, by decide, by decide, by decide⟩
      | exact ⟨[EntryEvent.createImGuiContext, EntryEvent.acquireDisplay,
                EntryEvent.acquireAudioStream, EntryEvent.resetAudioStream,
                EntryEvent.resetDisplay, EntryEvent.destroyImGuiContext], [],
               rfl, by decide, by decide, by decide⟩
      | exact ⟨[EntryEvent.createImGuiContext, EntryEvent.acquireDisplay,
                EntryEvent.acquireAudioStream, EntryEvent.bootSystem],
               List.replicate iters EntryEvent.frameLoopIter ++
                 [EntryEvent.resetDisplay, EntryEvent.resetAudioStream,
                  EntryEvent.destroyImGuiContext],
               rfl, by decide,
               by simp [List.mem_append, List.mem_replicate],
               fun hfalse => absurd hfalse (by decide)⟩

/-- Witness for C2 at a concrete input: audio reconfigure fails after the
display was created and the audio stream was created. -/
theorem entryEvents_signal_once_after_unwind_witness :
    ∃ pre post,
      entryEvents ⟨true, true, false, true, true⟩ 0 =
        pre ++ EntryEvent.storeStartResult (startResult ⟨true, true, false, true, true⟩) ::
          EntryEvent.signalReady :: post ∧
      EntryEvent.signalReady ∉ pre ∧ EntryEvent.signalReady ∉ post ∧
      (startResult ⟨true, true, false, true, true⟩ = false →
        EntryEvent.destroyImGuiContext ∈ pre ∧
        ((true : Bool) = true → EntryEvent.resetDisplay ∈ pre) ∧
        ((true : Bool) = true → (true : Bool) = true → EntryEvent.resetAudioStream ∈ pre)) :=
  entryEvents_signal_once_after_unwind ⟨true, true, false, true, true⟩ 0

/-- C8 counterexample: on the normal-shutdown path (all acquisitions
succeed, the loop runs and exits on the stop request) the acquisition
order is overlay context, display, audio stream, but the release order is
display first, then audio stream: the release order is not the reverse of
the acquisition order, contradicting the claim that the audio stream is
released before the display surface. -/
theorem entryEvents_teardown_not_reverse_order :
    EntryEvent.resetDisplay ∈ entryEvents ⟨true, true, true, true, true⟩ 0 ∧
    EntryEvent.resetAudioStream ∈ entryEvents ⟨true, true, true, true, true⟩ 0 ∧
    (entryEvents ⟨true, true, true, true, true⟩ 0).indexOf EntryEvent.createImGuiContext <
      (entryEvents ⟨true, true, true, true, true⟩ 0).indexOf EntryEvent.acquireDisplay ∧
    (entryEvents ⟨true, true, true, true, true⟩ 0).indexOf EntryEvent.acquireDisplay <
      (entryEvents ⟨true, true, true, true, true⟩ 0).indexOf EntryEvent.acquireAudioStream ∧
    ¬((entryEvents ⟨true, true, true, true, true⟩ 0).indexOf EntryEvent.resetAudioStream <
      (entryEvents ⟨true, true, true, true, true⟩ 0).indexOf EntryEvent.resetDisplay) := by
  decide

/-- C8 (amended): on normal shutdown (every acquisition succeeded, the
loop exited on a stop request) the worker releases the display surface
first, then the audio stream, then destroys the overlay context — the
overlay context, acquired first, is released last, but display and audio
are released in their acquisition order, not reversed. -/
theorem entryEvents_teardown_order (e : StartEnv) (iters : Nat)
    (h : startResult e = true) :
    ∃ pre, entryEvents e iters =
      pre ++ [EntryEvent.resetDisplay, EntryEvent.resetAudioStream,
              EntryEvent.destroyImGuiContext] := by
  rcases e with ⟨d, ac, ar, cs, b⟩
  simp only [startResult, Bool.and_eq_true] at h
  obtain ⟨⟨hd, hac, har⟩, hcs, hb⟩ := h
  subst hd; subst hac; subst har; subst hcs; subst hb
  refine ⟨[EntryEvent.createImGuiContext, EntryEvent.acquireDisplay,
           EntryEvent.acquireAudioStream, EntryEvent.bootSystem,
           EntryEvent.storeStartResult true, EntryEvent.signalReady] ++
            List.replicate iters EntryEvent.frameLoopIter, ?_⟩
  simp [entryEvents]

/-- Witness for the amended C8 at a concrete input: all acquisitions
succeed and the loop runs two iterations. -/
theorem entryEvents_teardown_order_witness :
    ∃ pre, entryEvents ⟨true, true, true, true, true⟩ 2 =
      pre ++ [EntryEvent.resetDisplay, EntryEvent.resetAudioStream,
              EntryEvent.destroyImGuiContext] :=
  entryEvents_teardown_order ⟨true, true, true, true, true⟩ 2 (by decide)

/-- C7 counterexample: the speed value 110 lies in the claimed inclusive
nominal range 90–110, yet `DrawFPSWindow` colours it with the fast band
(`m_speed < 110.0f` is false at 110), not the nominal one. -/
theorem speedBand_at_110_is_fast :
    (90 : ℚ) ≤ 110 ∧ (110 : ℚ) ≤ 110 ∧
    speedBand 110 = SpeedBand.fast ∧ SpeedBand.fast ≠ SpeedBand.nominal := by
  refine ⟨by norm_num, le_refl _, ?_, by decide⟩
  rw [speedBand]
  norm_num

/-- C7 (amended): the overlay status text shows the rounded (half away
from zero) speed percentage coloured by band, with the warning colour for
speeds below 90, the nominal colour for speeds in the half-open range
90 ≤ s < 110 (110 itself excluded), and the fast colour for speeds of 110
and above; in particular 85 maps to the slow band, 100 to nominal and 120
to fast. -/
theorem speedBand_thresholds (s : ℚ) :
    (speedBand s = SpeedBand.warning ↔ s < 90) ∧
    (speedBand s = SpeedBand.nominal ↔ 90 ≤ s ∧ s < 110) ∧
    (speedBand s = SpeedBand.fast ↔ 110 ≤ s) ∧
    drawSpeedStatus 85 = (85, SpeedBand.warning) ∧
    drawSpeedStatus 100 = (100, SpeedBand.nominal) ∧
    drawSpeedStatus 120 = (120, SpeedBand.fast) := by
  refine ⟨?_, ?_, ?_, ?_, ?_, ?_⟩
  · rw [speedBand]
    split_ifs with h1 h2
    · exact iff_of_true rfl h1
    · exact iff_of_false (by decide) h1
    · exact iff_of_false (by decide) h1
  · rw [speedBand]
    split_ifs with h1 h2
    · exact iff_of_false (by decide) (fun h => absurd h.1 (not_le.mpr h1))
    · exact iff_of_true rfl ⟨not_lt.mp h1, h2⟩
    · exact iff_of_false (by decide) (fun h => absurd h.2 h2)
  · rw [speedBand]
    split_ifs with h1 h2
    · exact iff_of_false (by decide) (fun h => absurd h1 (not_lt.mpr (le_trans (by norm_num) h)))
    · exact iff_of_false (by decide) (not_le.mpr h2)
    · exact iff_of_true rfl (not_lt.mp h2)
  · show (roundedSpeed 85, speedBand 85) = (85, SpeedBand.warning)
    rw [roundedSpeed, speedBand]
    norm_num
  · show (roundedSpeed 100, speedBand 100) = (100, SpeedBand.nominal)
    rw [roundedSpeed, speedBand]
    norm_num
  · show (roundedSpeed 120, speedBand 120) = (120, SpeedBand.fast)
    rw [roundedSpeed, speedBand]
    norm_num

end AndroidHostInterface
